import Mathlib

/-!
Shallow embedding of the CHIP-8 interpreter core of `src/chip8/chip8.py`
(class `Chip8`) and of the host loop fragment of `src/main.py` that the
verified properties refer to.

Modelling conventions:
* Python `int` values are modelled as `ℤ` (Python integers are unbounded and
  may go negative, e.g. in `sub_xy`).
* memory cells are modelled as `ℚ`, because `load_bcd` stores results of
  Python true division (`/=`), which produces non-integer values; integer
  stores embed into `ℚ`.  Exact rationals stand in for CPython floats: every
  value reached in the theorems below is decided by its rational value, and
  the float/rational distinction never crosses an integrality boundary used
  by a proof.
* Python list indexing (`l[i]`, `l[i] = v`) is modelled by `pyGet` / `pySet`
  with CPython semantics: non-negative indices from the front, negative
  indices from the back, `IndexError` otherwise.
* `quit()` (which raises `SystemExit` and terminates the interpreter) and an
  uncaught `IndexError` are modelled as the two constructors of `Fault`;
  fallible handlers return `Except Fault Chip8`.
* `logger.debug` / `logger.error` calls have no effect on interpreter state
  and are dropped.
-/

namespace Chip8Py

/-- How a Python run of a handler can abort: `sysExit` models a `quit()` call
(raises `SystemExit`, terminating the process), `indexError` models an
out-of-range list subscript. -/
inductive Fault where
  | sysExit
  | indexError
deriving DecidableEq, Repr

/-- CPython list subscript resolution for a list of length `n`: index `i` with
`0 ≤ i < n` is used as is, `-n ≤ i < 0` counts from the back, anything else is
an `IndexError` (`none`). -/
def pyIdx (n : ℕ) (i : ℤ) : Option ℕ :=
  if 0 ≤ i ∧ i < (n : ℤ) then some i.toNat
  else if -(n : ℤ) ≤ i ∧ i < 0 then some (i + (n : ℤ)).toNat
  else none

/-- Python list read `l[i]`. -/
def pyGet {α : Type} (l : List α) (i : ℤ) : Except Fault α :=
  match pyIdx l.length i with
  | some j =>
      match l[j]? with
      | some v => Except.ok v
      | none => Except.error Fault.indexError
  | none => Except.error Fault.indexError

/-- Python list write `l[i] = v`, returning the updated list. -/
def pySet {α : Type} (l : List α) (i : ℤ) (v : α) : Except Fault (List α) :=
  match pyIdx l.length i with
  | some j => Except.ok (l.set j v)
  | none => Except.error Fault.indexError

/-- CPython float `%` with modulus 10 on a non-negative value:
`q - 10 * ⌊q / 10⌋` (exact-rational model of the float operation). -/
def pyMod10 (q : ℚ) : ℚ := q - 10 * (⌊q / 10⌋ : ℤ)

/-- The interpreter state: the instance attributes set up by
`Chip8.__init__` in `src/chip8/chip8.py`. -/
structure Chip8 where
  /-- `self.program_counter`, starts at `0x200`. -/
  program_counter : ℤ
  /-- `self.stack_pointer`. -/
  stack_pointer : ℤ
  /-- `self.address_register` (`I`). -/
  address_register : ℤ
  /-- `self.registers`, 16 entries. -/
  registers : List ℤ
  /-- `self.memory`, 4096 entries. -/
  memory : List ℚ
  /-- `self.stack`, 16 entries. -/
  stack : List ℤ
  /-- `self.delay_timer`. -/
  delay_timer : ℤ
  /-- `self.sound_timer`. -/
  sound_timer : ℤ
  /-- `self.draw_flag` (`0`/`False` initially, `True` after `clear`). -/
  draw_flag : Bool
  /-- `self.display`, a 32×64 array of float zeros. -/
  display : Fin 32 → Fin 64 → ℚ

namespace Chip8

/-- The font table loaded by `load_font` (80 bytes, glyphs 0–F). -/
def font : List ℚ :=
  [0xF0, 0x90, 0x90, 0x90, 0xF0,
   0x20, 0x60, 0x20, 0x20, 0x70,
   0xF0, 0x10, 0xF0, 0x80, 0xF0,
   0xF0, 0x10, 0xF0, 0x10, 0xF0,
   0xA0, 0xA0, 0xF0, 0x20, 0x20,
   0xF0, 0x80, 0xF0, 0x10, 0xF0,
   0xF0, 0x80, 0xF0, 0x90, 0xF0,
   0xF0, 0x10, 0x20, 0x40, 0x40,
   0xF0, 0x90, 0xF0, 0x90, 0xF0,
   0xF0, 0x90, 0xF0, 0x10, 0xF0,
   0xF0, 0x90, 0xF0, 0x90, 0x90,
   0xE0, 0x90, 0xE0, 0x90, 0xE0,
   0xF0, 0x80, 0x80, 0x80, 0xF0,
   0xE0, 0x90, 0x90, 0x90, 0xE0,
   0xF0, 0x80, 0xF0, 0x80, 0xF0,
   0xF0, 0x80, 0xF0, 0x80, 0x80]

/-- `Chip8.__init__` followed by `load_font`: `memory[:80] = font` over a
4096-cell zero memory, all other attributes as in the constructor. -/
def init : Chip8 where
  program_counter := 0x200
  stack_pointer := 0
  address_register := 0x000
  registers := List.replicate 16 0
  memory := font ++ List.replicate (4096 - 80) 0
  stack := List.replicate 16 0
  delay_timer := 0
  sound_timer := 0
  draw_flag := false
  display := fun _ _ => 0

/-- `get_instruction`: the source body is `NotImplemented(); return 0`.  The
`NotImplemented()` expression is modelled as having no effect on interpreter
state (in CPython it would raise a `TypeError`; see the cycle theorems for how
this is accounted for). -/
def get_instruction (_s : Chip8) : ℤ := 0

/-- `execute_instruction`: the source body is `NotImplemented()`, modelled as
having no effect on interpreter state. -/
def execute_instruction (s : Chip8) (_instruction : ℤ) : Chip8 := s

/-- `cycle`: fetch (stub), execute (stub), then decrement each nonzero timer
by one. -/
def cycle (s : Chip8) : Chip8 :=
  let instruction := s.get_instruction
  let s := s.execute_instruction instruction
  let s :=
    if s.delay_timer > 0 then
      { s with delay_timer := s.delay_timer - 1 }
    else s
  if s.sound_timer > 0 then
    { s with sound_timer := s.sound_timer - 1 }
  else s

/-- `ret` (instruction 00EE): decrement SP, `quit()` if it went below 0, else
load PC from the stack top and add 2. -/
def ret (s : Chip8) : Except Fault Chip8 := do
  let s := { s with stack_pointer := s.stack_pointer - 1 }
  if s.stack_pointer < 0 then
    Except.error Fault.sysExit
  else
    let v ← pyGet s.stack s.stack_pointer
    let s := { s with program_counter := v }
    Except.ok { s with program_counter := s.program_counter + 2 }

/-- `jump` (instruction 1nnn): set PC to `nnn`, `quit()` if the new PC
exceeds 4028. -/
def jump (s : Chip8) (nnn : ℤ) : Except Fault Chip8 :=
  let s := { s with program_counter := nnn }
  if s.program_counter > 4028 then
    Except.error Fault.sysExit
  else
    Except.ok s

/-- `call` (instruction 2nnn): store PC at `stack[SP]`, set PC to `nnn`
(logging only if it exceeds 4028), then increment SP (logging only if it
exceeds `len(stack)`). -/
def call (s : Chip8) (nnn : ℤ) : Except Fault Chip8 := do
  let st ← pySet s.stack s.stack_pointer s.program_counter
  let s := { s with stack := st }
  let s := { s with program_counter := nnn }
  let s := { s with stack_pointer := s.stack_pointer + 1 }
  Except.ok s

/-- `skip_if` (instruction 3xkk): add 2 to PC if `registers[vx] == kk`, then
add 2 unconditionally. -/
def skip_if (s : Chip8) (vx kk : ℤ) : Except Fault Chip8 := do
  let v ← pyGet s.registers vx
  let s :=
    if v = kk then { s with program_counter := s.program_counter + 2 } else s
  Except.ok { s with program_counter := s.program_counter + 2 }

/-- `skip_if_not` (instruction 4xkk): add 2 to PC if `registers[vx] != kk`,
then add 2 unconditionally. -/
def skip_if_not (s : Chip8) (vx kk : ℤ) : Except Fault Chip8 := do
  let v ← pyGet s.registers vx
  let s :=
    if v ≠ kk then { s with program_counter := s.program_counter + 2 } else s
  Except.ok { s with program_counter := s.program_counter + 2 }

/-- `skip_if_xy` (instruction 5xy0): add 2 to PC if
`registers[vx] == registers[vy]`, then add 2 unconditionally. -/
def skip_if_xy (s : Chip8) (vx vy : ℤ) : Except Fault Chip8 := do
  let a ← pyGet s.registers vx
  let b ← pyGet s.registers vy
  let s :=
    if a = b then { s with program_counter := s.program_counter + 2 } else s
  Except.ok { s with program_counter := s.program_counter + 2 }

/-- `skip_if_not_xy` (instruction 9xy0): add 2 to PC if
`registers[vx] != registers[vy]`, then add 2 unconditionally. -/
def skip_if_not_xy (s : Chip8) (vx vy : ℤ) : Except Fault Chip8 := do
  let a ← pyGet s.registers vx
  let b ← pyGet s.registers vy
  let s :=
    if a ≠ b then { s with program_counter := s.program_counter + 2 } else s
  Except.ok { s with program_counter := s.program_counter + 2 }

/-- `add` (instruction 7xkk): `registers[vx] += kk` (no reduction mod 256 in
the source), then PC += 2. -/
def add (s : Chip8) (vx kk : ℤ) : Except Fault Chip8 := do
  let v ← pyGet s.registers vx
  let r ← pySet s.registers vx (v + kk)
  Except.ok { s with registers := r, program_counter := s.program_counter + 2 }

/-- `add_xy` (instruction 8xy4): `num = registers[vx] + registers[vy]`; write
the carry flag into `registers[0xF]`; then `registers[vx] = num` (the source
stores the raw sum, with no reduction mod 256); PC += 2. -/
def add_xy (s : Chip8) (vx vy : ℤ) : Except Fault Chip8 := do
  let a ← pyGet s.registers vx
  let b ← pyGet s.registers vy
  let num := a + b
  let r1 ← pySet s.registers 0xF (if num > 255 then 1 else 0)
  let r2 ← pySet r1 vx num
  Except.ok { s with registers := r2, program_counter := s.program_counter + 2 }

/-- `sub_xy` (instruction 8xy5): write the not-borrow flag into
`registers[0xF]` first, then `registers[vx] = registers[vx] - registers[vy]`,
re-reading both operands after the flag write as the source does; PC += 2. -/
def sub_xy (s : Chip8) (vx vy : ℤ) : Except Fault Chip8 := do
  let a ← pyGet s.registers vx
  let b ← pyGet s.registers vy
  let r1 ← pySet s.registers 0xF (if a > b then 1 else 0)
  let a2 ← pyGet r1 vx
  let b2 ← pyGet r1 vy
  let r2 ← pySet r1 vx (a2 - b2)
  Except.ok { s with registers := r2, program_counter := s.program_counter + 2 }

/-- `sub_yx` (instruction 8xy7): write the not-borrow flag into
`registers[0xF]` first, then `registers[vx] = registers[vy] - registers[vx]`,
re-reading both operands after the flag write as the source does; PC += 2. -/
def sub_yx (s : Chip8) (vx vy : ℤ) : Except Fault Chip8 := do
  let a ← pyGet s.registers vx
  let b ← pyGet s.registers vy
  let r1 ← pySet s.registers 0xF (if b > a then 1 else 0)
  let a2 ← pyGet r1 vx
  let b2 ← pyGet r1 vy
  let r2 ← pySet r1 vx (b2 - a2)
  Except.ok { s with registers := r2, program_counter := s.program_counter + 2 }

/-- `shift_left` (instruction 8xyE): `registers[0xF] = (registers[vx] >> 7) & 1`,
then `registers[vx] = registers[vx] << 1` (no reduction mod 256 in the
source); PC += 2.  Python `>> 7` on an `int` is floor division by 128 and
`& 1` on the result is its residue mod 2; `<< 1` is multiplication by 2. -/
def shift_left (s : Chip8) (vx : ℤ) : Except Fault Chip8 := do
  let a ← pyGet s.registers vx
  let r1 ← pySet s.registers 0xF ((Int.fdiv a 128) % 2)
  let a2 ← pyGet r1 vx
  let r2 ← pySet r1 vx (a2 * 2)
  Except.ok { s with registers := r2, program_counter := s.program_counter + 2 }

/-- `load_stx` (instruction Fx18, "set sound timer = Vx"): the source body is
`self.stack_pointer = self.registers[vx]` followed by PC += 2 — it assigns to
the stack pointer, not to the sound timer. -/
def load_stx (s : Chip8) (vx : ℤ) : Except Fault Chip8 := do
  let v ← pyGet s.registers vx
  let s := { s with stack_pointer := v }
  Except.ok { s with program_counter := s.program_counter + 2 }

/-- `load_bcd` (instruction Fx33): `dec = registers[vx]`, then the loop
`for i in range(2, -1, -1): memory[I + i] = dec % 10; dec /= 10` unrolled
over `i = 2, 1, 0`; PC += 2.  Python `/=` is true division, modelled as exact
division in `ℚ`. -/
def load_bcd (s : Chip8) (vx : ℤ) : Except Fault Chip8 := do
  let v ← pyGet s.registers vx
  let dec : ℚ := (v : ℚ)
  let m2 ← pySet s.memory (s.address_register + 2) (pyMod10 dec)
  let dec := dec / 10
  let m1 ← pySet m2 (s.address_register + 1) (pyMod10 dec)
  let dec := dec / 10
  let m0 ← pySet m1 (s.address_register + 0) (pyMod10 dec)
  Except.ok { s with memory := m0, program_counter := s.program_counter + 2 }

end Chip8

/-- Frame predicate: all interpreter state apart from the program counter
agrees between `s` and `t`. -/
def OnlyPC (s t : Chip8) : Prop :=
  t.stack_pointer = s.stack_pointer ∧
  t.address_register = s.address_register ∧
  t.registers = s.registers ∧
  t.memory = s.memory ∧
  t.stack = s.stack ∧
  t.delay_timer = s.delay_timer ∧
  t.sound_timer = s.sound_timer ∧
  t.draw_flag = s.draw_flag ∧
  t.display = s.display

/-- Specification of the four value-skip handlers on a state `s`: each one
succeeds, changes nothing but the program counter, and advances it by 4 when
its condition holds and by 2 otherwise. -/
def SkipFamilySpec (s : Chip8) (vx vy kk : ℤ) : Prop :=
  (∃ t, Chip8.skip_if s vx kk = Except.ok t ∧ OnlyPC s t ∧
     t.program_counter = s.program_counter +
       (if s.registers.getD vx.toNat 0 = kk then 4 else 2)) ∧
  (∃ t, Chip8.skip_if_not s vx kk = Except.ok t ∧ OnlyPC s t ∧
     t.program_counter = s.program_counter +
       (if s.registers.getD vx.toNat 0 ≠ kk then 4 else 2)) ∧
  (∃ t, Chip8.skip_if_xy s vx vy = Except.ok t ∧ OnlyPC s t ∧
     t.program_counter = s.program_counter +
       (if s.registers.getD vx.toNat 0 = s.registers.getD vy.toNat 0 then 4 else 2)) ∧
  (∃ t, Chip8.skip_if_not_xy s vx vy = Except.ok t ∧ OnlyPC s t ∧
     t.program_counter = s.program_counter +
       (if s.registers.getD vx.toNat 0 ≠ s.registers.getD vy.toNat 0 then 4 else 2))

/-! ### Helper lemmas about the Python list primitives -/

theorem ok_bind {α β : Type} (a : α) (f : α → Except Fault β) :
    (Except.ok a >>= f) = f a := rfl

theorem pyIdx_pos {n : ℕ} {i : ℤ} (h0 : 0 ≤ i) (h : i < (n : ℤ)) :
    pyIdx n i = some i.toNat := by
  unfold pyIdx
  rw [if_pos ⟨h0, h⟩]

theorem pyGet_ok {α : Type} {l : List α} {i : ℤ} (h0 : 0 ≤ i)
    (hlt : i.toNat < l.length) :
    pyGet l i = Except.ok l[i.toNat] := by
  unfold pyGet
  rw [pyIdx_pos h0 (by omega)]
  simp [List.getElem?_eq_getElem hlt]

theorem pySet_ok {α : Type} {l : List α} {i : ℤ} (v : α) (h0 : 0 ≤ i)
    (hlt : i.toNat < l.length) :
    pySet l i v = Except.ok (l.set i.toNat v) := by
  unfold pySet
  rw [pyIdx_pos h0 (by omega)]

/-! ### Helper lemmas about individual handlers -/

theorem cycle_timers (s : Chip8) (hd : 0 < s.delay_timer)
    (hs : 0 < s.sound_timer) :
    Chip8.cycle s =
      { s with delay_timer := s.delay_timer - 1,
               sound_timer := s.sound_timer - 1 } := by
  simp [Chip8.cycle, Chip8.get_instruction, Chip8.execute_instruction, hd, hs]

theorem cycle_iter_timers (n : ℕ) :
    ∀ s : Chip8, (n : ℤ) ≤ s.delay_timer → (n : ℤ) ≤ s.sound_timer →
      ((Chip8.cycle)^[n] s).delay_timer = s.delay_timer - n ∧
      ((Chip8.cycle)^[n] s).sound_timer = s.sound_timer - n := by
  induction n with
  | zero => intro s _ _; simp
  | succ n ih =>
      intro s hd hs
      rw [Function.iterate_succ_apply]
      have hd1 : 0 < s.delay_timer := by push_cast at hd; omega
      have hs1 : 0 < s.sound_timer := by push_cast at hs; omega
      rw [cycle_timers s hd1 hs1]
      have h := ih { s with delay_timer := s.delay_timer - 1,
                            sound_timer := s.sound_timer - 1 }
        (by simp only; push_cast at hd ⊢; omega)
        (by simp only; push_cast at hs ⊢; omega)
      constructor
      · rw [h.1]; simp only; push_cast; ring
      · rw [h.2]; simp only; push_cast; ring

theorem call_ok (s : Chip8) (nnn : ℤ) (h0 : 0 ≤ s.stack_pointer)
    (hlt : s.stack_pointer.toNat < s.stack.length) :
    Chip8.call s nnn = Except.ok
      { s with stack := s.stack.set s.stack_pointer.toNat s.program_counter,
               program_counter := nnn,
               stack_pointer := s.stack_pointer + 1 } := by
  simp only [Chip8.call]
  rw [pySet_ok _ h0 hlt]
  rfl

theorem ret_ok (s : Chip8) (h1 : 1 ≤ s.stack_pointer)
    (hlt : (s.stack_pointer - 1).toNat < s.stack.length) :
    Chip8.ret s = Except.ok
      { s with stack_pointer := s.stack_pointer - 1,
               program_counter := s.stack.getD (s.stack_pointer - 1).toNat 0 + 2 } := by
  simp only [Chip8.ret]
  rw [if_neg (by omega : ¬ s.stack_pointer - 1 < 0)]
  rw [pyGet_ok (by omega) hlt]
  rw [List.getD_eq_getElem _ _ hlt]
  rfl

theorem load_bcd_ok (s : Chip8) (vx : ℤ) (v : ℤ)
    (hreg : pyGet s.registers vx = Except.ok v)
    (hI : 0 ≤ s.address_register)
    (h2 : (s.address_register + 2).toNat < s.memory.length) :
    Chip8.load_bcd s vx = Except.ok
      { s with
        memory := ((s.memory.set (s.address_register + 2).toNat
                      (pyMod10 (v : ℚ))).set (s.address_register + 1).toNat
                      (pyMod10 ((v : ℚ) / 10))).set (s.address_register + 0).toNat
                      (pyMod10 ((v : ℚ) / 10 / 10)),
        program_counter := s.program_counter + 2 } := by
  have l2 : (s.address_register + 2).toNat < s.memory.length := h2
  have l1 : (s.address_register + 1).toNat <
      (s.memory.set (s.address_register + 2).toNat (pyMod10 (v : ℚ))).length := by
    rw [List.length_set]; omega
  have l0 : (s.address_register + 0).toNat <
      ((s.memory.set (s.address_register + 2).toNat (pyMod10 (v : ℚ))).set
        (s.address_register + 1).toNat (pyMod10 ((v : ℚ) / 10))).length := by
    rw [List.length_set, List.length_set]; omega
  simp only [Chip8.load_bcd, hreg, ok_bind]
  rw [pySet_ok _ (by omega) l2, ok_bind, pySet_ok _ (by omega) l1, ok_bind,
    pySet_ok _ (by omega) l0, ok_bind]

/-! ### Claim theorems -/

/-- C1: executing `load_stx` (Fx18) with `vx = 0` on the initial state with
`V0 = 5` leaves the sound timer at 0 and sets the stack pointer to 5 (with
PC advanced by 2): the source assigns `registers[vx]` to `stack_pointer`
instead of `sound_timer`, contrary to the claim (and to the handler's own
docstring) that Fx18 sets the sound timer and leaves the stack pointer
unchanged. -/
theorem load_stx_assigns_stack_pointer :
    (Chip8.load_stx { Chip8.init with registers := (List.replicate 16 0).set 0 5 } 0).map
      (fun s => (s.sound_timer, s.stack_pointer, s.program_counter)) =
    Except.ok (0, 5, 0x202) := by rfl

/-- C2: the cycle loop decrements the timers once per executed instruction:
starting from delay and sound timers both 1000, executing 1000 cycles drives
both timers to 0 (a decrement of 1000), whereas the claim requires a
decrement of exactly 1 for 1000 cycles inside one 60Hz tick interval. -/
theorem cycle_ticks_timers_every_instruction :
    ((Chip8.cycle)^[1000]
        { Chip8.init with delay_timer := 1000, sound_timer := 1000 }).delay_timer = 0 ∧
    ((Chip8.cycle)^[1000]
        { Chip8.init with delay_timer := 1000, sound_timer := 1000 }).sound_timer = 0 := by
  have h := cycle_iter_timers 1000
    { Chip8.init with delay_timer := 1000, sound_timer := 1000 }
    (by norm_num) (by norm_num)
  constructor
  · rw [h.1]; norm_num
  · rw [h.2]; norm_num

/-- C3: `add_xy` (8xy4) with `V0 = 200`, `V1 = 100` stores the raw sum 300
into `V0` instead of `(200 + 100) mod 256 = 44`; the carry flag (1) and the
PC advance (+2) do behave as claimed.  The source never truncates the sum,
contrary to the claim and to the handler's own docstring ("Only the lowest 8
bits of the result are kept"). -/
theorem add_xy_stores_raw_sum :
    (Chip8.add_xy
        { Chip8.init with registers := ((List.replicate 16 0).set 0 200).set 1 100 } 0 1).map
      (fun s => (pyGet s.registers 0, pyGet s.registers 0xF, s.program_counter)) =
    Except.ok (Except.ok 300, Except.ok 1, 0x202) := by rfl

/-- C4: `add_xy` (8xy4) with destination `x = 0xF` (`VF = 200`, `V1 = 100`)
ends with `VF = 300`, the raw arithmetic result, not the carry flag 1: the
source writes the flag into `registers[0xF]` before storing the result into
`registers[vx]`, so when `vx = 0xF` the result write — not the flag write —
is the last register mutation, contrary to the claim. -/
theorem add_xy_result_overwrites_flag :
    (Chip8.add_xy
        { Chip8.init with registers := ((List.replicate 16 0).set 0xF 200).set 1 100 } 0xF 1).map
      (fun s => pyGet s.registers 0xF) =
    Except.ok (Except.ok 300) := by rfl

/-- C5: starting from registers that all lie in [0,255] (`V0 = 255`, the
rest 0), `add` (7xkk) with `kk = 1` leaves `V0 = 256`, outside [0,255]: the
handler performs no reduction mod 256, refuting the 8-bit register
invariant. -/
theorem add_breaks_byte_invariant :
    (∀ v ∈ (List.replicate 16 (0 : ℤ)).set 0 255, 0 ≤ v ∧ v ≤ 255) ∧
    (Chip8.add { Chip8.init with registers := (List.replicate 16 0).set 0 255 } 0 1).map
      (fun s => pyGet s.registers 0) =
    Except.ok (Except.ok 256) := ⟨by decide, rfl⟩

/-- C6: `ret` executed at `SP = 0` terminates the process from inside the
core (the source calls `quit()`, modelled as `Fault.sysExit`) instead of
reporting a recoverable StackFault value, and `call` executed at `SP = 16`
raises an uncaught `IndexError` on `stack[16]` (its logging-only bounds
check never fires): neither path yields a distinct recoverable error value
for the host. -/
theorem stack_faults_terminate_or_raise :
    Chip8.ret Chip8.init = Except.error Fault.sysExit ∧
    Chip8.call { Chip8.init with stack_pointer := 16 } 0x300 =
      Except.error Fault.indexError := ⟨rfl, rfl⟩

/-- C7: `jump 4095` from the initial state terminates the process: the
source calls `quit()` whenever the new PC exceeds 4028, although
`4095 = 0xFFF` is a valid memory address; the claim requires `jump nnn` to
set `PC = nnn` without fault for every `nnn` in [0, 0xFFF]. -/
theorem jump_quits_above_4028 :
    Chip8.jump Chip8.init 4095 = Except.error Fault.sysExit := by rfl

/-- C8: on any state whose stack has its 16 slots and whose stack pointer
lies in [0, 15], `call nnn` followed by `ret` succeeds, restores the program
counter to the call-site PC plus 2, and restores the stack pointer to its
pre-call value. -/
theorem call_then_ret_restores (s : Chip8) (nnn : ℤ)
    (hlen : s.stack.length = 16) (h0 : 0 ≤ s.stack_pointer)
    (h15 : s.stack_pointer ≤ 15) :
    ∃ t u, Chip8.call s nnn = Except.ok t ∧ Chip8.ret t = Except.ok u ∧
      u.program_counter = s.program_counter + 2 ∧
      u.stack_pointer = s.stack_pointer := by
  have hlt : s.stack_pointer.toNat < s.stack.length := by omega
  have hcall := call_ok s nnn h0 hlt
  set t : Chip8 :=
    { s with stack := s.stack.set s.stack_pointer.toNat s.program_counter,
             program_counter := nnn,
             stack_pointer := s.stack_pointer + 1 } with ht
  have htsp : t.stack_pointer = s.stack_pointer + 1 := rfl
  have htlen : t.stack.length = 16 := by
    rw [ht]; simp only [List.length_set]; exact hlen
  have h1 : 1 ≤ t.stack_pointer := by rw [htsp]; omega
  have hlt2 : (t.stack_pointer - 1).toNat < t.stack.length := by
    rw [htsp, htlen]; omega
  have hret := ret_ok t h1 hlt2
  refine ⟨t, _, hcall, hret, ?_, ?_⟩
  · show t.stack.getD (t.stack_pointer - 1).toNat 0 + 2 = s.program_counter + 2
    have e : (t.stack_pointer - 1).toNat = s.stack_pointer.toNat := by
      rw [htsp]; omega
    rw [e]
    show (s.stack.set s.stack_pointer.toNat s.program_counter).getD
      s.stack_pointer.toNat 0 + 2 = s.program_counter + 2
    rw [List.getD_eq_getElem _ _ (by rw [List.length_set]; omega),
        List.getElem_set_self]
  · show t.stack_pointer - 1 = s.stack_pointer
    rw [htsp]; ring

/-- C8 witness: the roundtrip property instantiated on the initial state and
target `0x300`. -/
theorem call_then_ret_restores_witness :
    Chip8.init.stack.length = 16 ∧ 0 ≤ Chip8.init.stack_pointer ∧
    Chip8.init.stack_pointer ≤ 15 ∧
    (∃ t u, Chip8.call Chip8.init 0x300 = Except.ok t ∧
      Chip8.ret t = Except.ok u ∧
      u.program_counter = Chip8.init.program_counter + 2 ∧
      u.stack_pointer = Chip8.init.stack_pointer) :=
  ⟨by decide, by decide, by decide,
   call_then_ret_restores Chip8.init 0x300 (by decide) (by decide) (by decide)⟩

/-- C9: `load_bcd` (Fx33) with `V0 = 123` and `I = 0x50` stores `123/100` at
`Memory[I]`, `23/10` at `Memory[I+1]` and `3` at `Memory[I+2]`: the source
uses Python true division (`dec /= 10`) instead of integer division, so the
hundreds and tens cells receive non-integer values (`1.23` and `2.3`) rather
than the digits 1 and 2 required by the claim; only the ones digit is
correct. -/
theorem load_bcd_stores_nonintegral_digits :
    (Chip8.load_bcd
        { Chip8.init with registers := (List.replicate 16 0).set 0 123,
                          address_register := 0x50 } 0).map
      (fun s => (s.memory.getD 80 0, s.memory.getD 81 0, s.memory.getD 82 0)) =
    Except.ok ((123 : ℚ)/100, (23 : ℚ)/10, 3) := by
  have hreg : pyGet ((List.replicate 16 (0 : ℤ)).set 0 123) 0 = Except.ok 123 := rfl
  have hmemlen : (Chip8.font ++ List.replicate (4096 - 80) (0 : ℚ)).length = 4096 := by
    rw [List.length_append, List.length_replicate]
    rfl
  have h2 : ((0x50 : ℤ) + 2).toNat <
      (Chip8.font ++ List.replicate (4096 - 80) (0 : ℚ)).length := by
    rw [hmemlen]; norm_num
  rw [load_bcd_ok _ 0 123 hreg (by norm_num) h2]
  simp only [Except.map]
  have e2 : ((0x50 : ℤ) + 2).toNat = 82 := by decide
  have e1 : ((0x50 : ℤ) + 1).toNat = 81 := by decide
  have e0 : ((0x50 : ℤ) + 0).toNat = 80 := by decide
  rw [e2, e1, e0]
  rw [show Chip8.init.memory = Chip8.font ++ List.replicate (4096 - 80) (0 : ℚ) from rfl]
  have len2 : ((Chip8.font ++ List.replicate (4096 - 80) (0 : ℚ)).set 82
      (pyMod10 ((123 : ℤ) : ℚ))).length = 4096 := by
    rw [List.length_set, hmemlen]
  have len1 : (((Chip8.font ++ List.replicate (4096 - 80) (0 : ℚ)).set 82
      (pyMod10 ((123 : ℤ) : ℚ))).set 81
      (pyMod10 (((123 : ℤ) : ℚ) / 10))).length = 4096 := by
    rw [List.length_set, len2]
  have len0 : ((((Chip8.font ++ List.replicate (4096 - 80) (0 : ℚ)).set 82
      (pyMod10 ((123 : ℤ) : ℚ))).set 81
      (pyMod10 (((123 : ℤ) : ℚ) / 10))).set 80
      (pyMod10 (((123 : ℤ) : ℚ) / 10 / 10))).length = 4096 := by
    rw [List.length_set, len1]
  rw [List.getD_eq_getElem _ _ (by rw [len0]; norm_num),
      List.getD_eq_getElem _ _ (by rw [len0]; norm_num),
      List.getD_eq_getElem _ _ (by rw [len0]; norm_num)]
  have n1 : (80 : ℕ) ≠ 81 := by decide
  have n2 : (80 : ℕ) ≠ 82 := by decide
  have n3 : (81 : ℕ) ≠ 82 := by decide
  simp only [List.getElem_set_ne n1, List.getElem_set_ne n2,
    List.getElem_set_ne n3, List.getElem_set_self]
  norm_num [pyMod10]

/-- C10: each of the four value-skip handlers (3xkk, 4xkk, 5xy0, 9xy0)
succeeds, modifies only the program counter — by 4 when its condition holds
and by 2 otherwise — and leaves the registers, memory, stack, stack pointer,
index register, both timers, the display buffer and the draw flag
unchanged. -/
theorem skip_family_frame (s : Chip8) (vx vy kk : ℤ)
    (hlen : s.registers.length = 16)
    (hx0 : 0 ≤ vx) (hx : vx < 16) (hy0 : 0 ≤ vy) (hy : vy < 16) :
    SkipFamilySpec s vx vy kk := by
  have hx1 : vx.toNat < s.registers.length := by omega
  have hy1 : vy.toNat < s.registers.length := by omega
  have gx := pyGet_ok (l := s.registers) (i := vx) hx0 hx1
  have gy := pyGet_ok (l := s.registers) (i := vy) hy0 hy1
  have dx : s.registers.getD vx.toNat 0 = s.registers[vx.toNat] := by
    rw [List.getD_eq_getElem _ _ hx1]
  have dy : s.registers.getD vy.toNat 0 = s.registers[vy.toNat] := by
    rw [List.getD_eq_getElem _ _ hy1]
  refine ⟨?_, ?_, ?_, ?_⟩
  · by_cases hc : s.registers[vx.toNat] = kk
    · refine ⟨{ s with program_counter := s.program_counter + 2 + 2 }, ?_, ?_, ?_⟩
      · simp [Chip8.skip_if, gx, ok_bind, hc]
      · exact ⟨rfl, rfl, rfl, rfl, rfl, rfl, rfl, rfl, rfl⟩
      · show s.program_counter + 2 + 2 = _
        rw [dx, if_pos hc]; ring
    · refine ⟨{ s with program_counter := s.program_counter + 2 }, ?_, ?_, ?_⟩
      · simp [Chip8.skip_if, gx, ok_bind, hc]
      · exact ⟨rfl, rfl, rfl, rfl, rfl, rfl, rfl, rfl, rfl⟩
      · show s.program_counter + 2 = _
        rw [dx, if_neg hc]
  · by_cases hc : s.registers[vx.toNat] = kk
    · refine ⟨{ s with program_counter := s.program_counter + 2 }, ?_, ?_, ?_⟩
      · simp [Chip8.skip_if_not, gx, ok_bind, hc]
      · exact ⟨rfl, rfl, rfl, rfl, rfl, rfl, rfl, rfl, rfl⟩
      · show s.program_counter + 2 = _
        rw [dx, if_neg (by simpa using hc)]
    · refine ⟨{ s with program_counter := s.program_counter + 2 + 2 }, ?_, ?_, ?_⟩
      · simp [Chip8.skip_if_not, gx, ok_bind, hc]
      · exact ⟨rfl, rfl, rfl, rfl, rfl, rfl, rfl, rfl, rfl⟩
      · show s.program_counter + 2 + 2 = _
        rw [dx, if_pos (by simpa using hc)]; ring
  · by_cases hc : s.registers[vx.toNat] = s.registers[vy.toNat]
    · refine ⟨{ s with program_counter := s.program_counter + 2 + 2 }, ?_, ?_, ?_⟩
      · simp [Chip8.skip_if_xy, gx, gy, ok_bind, hc]
      · exact ⟨rfl, rfl, rfl, rfl, rfl, rfl, rfl, rfl, rfl⟩
      · show s.program_counter + 2 + 2 = _
        rw [dx, dy, if_pos hc]; ring
    · refine ⟨{ s with program_counter := s.program_counter + 2 }, ?_, ?_, ?_⟩
      · simp [Chip8.skip_if_xy, gx, gy, ok_bind, hc]
      · exact ⟨rfl, rfl, rfl, rfl, rfl, rfl, rfl, rfl, rfl⟩
      · show s.program_counter + 2 = _
        rw [dx, dy, if_neg hc]
  · by_cases hc : s.registers[vx.toNat] = s.registers[vy.toNat]
    · refine ⟨{ s with program_counter := s.program_counter + 2 }, ?_, ?_, ?_⟩
      · simp [Chip8.skip_if_not_xy, gx, gy, ok_bind, hc]
      · exact ⟨rfl, rfl, rfl, rfl, rfl, rfl, rfl, rfl, rfl⟩
      · show s.program_counter + 2 = _
        rw [dx, dy, if_neg (by simpa using hc)]
    · refine ⟨{ s with program_counter := s.program_counter + 2 + 2 }, ?_, ?_, ?_⟩
      · simp [Chip8.skip_if_not_xy, gx, gy, ok_bind, hc]
      · exact ⟨rfl, rfl, rfl, rfl, rfl, rfl, rfl, rfl, rfl⟩
      · show s.program_counter + 2 + 2 = _
        rw [dx, dy, if_pos (by simpa using hc)]; ring

/-- C10 witness: the skip-family frame property instantiated on the initial
state with `vx = 0`, `vy = 1`, `kk = 0`. -/
theorem skip_family_frame_witness :
    Chip8.init.registers.length = 16 ∧ SkipFamilySpec Chip8.init 0 1 0 :=
  ⟨by decide,
   skip_family_frame Chip8.init 0 1 0 (by decide) (by decide) (by decide)
     (by decide) (by decide)⟩

end Chip8Py
